import Mathlib

/-!
Verification of the event-driven multimodal segment-analysis engine of
`MultiModalAnalyzer_Optimized.py` against its natural-language specification.

The Python code is shallowly embedded: Python floats become `ℚ`, Python
`int(x)` (truncation toward zero) becomes `pyInt`, segment dictionaries become
`RawSegment` records with `Option` fields (a missing dictionary key is `none`,
`dict.get(k, d)` is `Option.getD`), and the two time-indexed cache
dictionaries become association lists in insertion order.  External
capabilities (event detection, trigger policy, prosody and facial analyzers)
are injected into the analyzer object at construction time; they are modelled
as an `Oracles` record, with `Except Unit` results standing for Python calls
that may raise.  Calls whose exceptions the source catches locally are
modelled total, because the enclosing `try` block makes them so.
-/

/-- Python `int(x)` on a float: truncation toward zero
(floor for nonnegative values, ceiling for negative ones). -/
def pyInt (q : ℚ) : ℤ := if 0 ≤ q then ⌊q⌋ else ⌈q⌉

/-- Python `f"{n:06d}"`: decimal rendering left-padded with zeros to width 6,
the sign counted in the width and written before the padding. -/
def zfill6 (n : ℤ) : String :=
  let digits := toString n.natAbs
  let sign := if n < 0 then "-" else ""
  sign ++ String.mk (List.replicate (6 - (sign.length + digits.length)) '0') ++ digits

/-- The `segment_id` format of lines 784, 817 and 840:
`f"seg_{start_ms:06d}_{end_ms:06d}"`. -/
def seg_id (start_ms end_ms : ℤ) : String :=
  "seg_" ++ zfill6 start_ms ++ "_" ++ zfill6 end_ms

/-- An ASR segment dictionary (`{text, start_ms, end_ms, source, punct}`):
`none` models a missing key, matching the `.get` defaults of the source. -/
structure RawSegment where
  text : Option String
  start_ms : Option ℤ
  end_ms : Option ℤ
  source : Option String
  punct : Option String
deriving DecidableEq

/-- A prosody feature bundle `{pitch, rate, level}` (lists of floats). -/
structure SoundFeatures where
  pitch : List ℚ
  rate : List ℚ
  level : List ℚ
deriving DecidableEq

/-- A facial feature bundle: a mapping from feature name to a `[mean, std]`
pair, kept in insertion order as the Python dict does. -/
abbrev FaceFeatures := List (String × (ℚ × ℚ))

/-- The `meta` sub-dictionary of a produced segment result. -/
structure SegmentMeta where
  schema_version : String
  source : String
  fallback_vad : Bool
  original_punct : String
  analysis_mode : String
deriving DecidableEq

/-- One produced analysis record (the dictionaries built at lines 783-797,
816-830 and 839-853 share this shape). -/
structure SegmentResult where
  segment_id : String
  word : String
  start_ms : ℤ
  end_ms : ℤ
  sound : SoundFeatures
  face : FaceFeatures
  meta : SegmentMeta
deriving DecidableEq

/-- A detected change event (only its presence matters to the trigger). -/
structure Event where
  type : String
  confidence : ℚ
deriving DecidableEq

/-- The dictionary returned by `should_trigger_analysis`. -/
structure TriggerDecision where
  should_trigger : Bool
  reasons : List String
deriving DecidableEq

/-- Configuration `CFG["prosody_points"]` (line 399). -/
def prosody_points : ℕ := 15

/-- Configuration `CFG["cache_max_age_s"]` (line 404). -/
def cache_max_age_s : ℚ := 300

/-- `LightweightDetector.should_trigger_analysis` (lines 246-260).  The draw
`np.random.random() > 0.5` is modelled by the boolean `rand_gt_half`, so the
function is quantified over both outcomes of the random source. -/
def should_trigger_analysis (events : List Event) (timestamp : ℚ)
    (rand_gt_half : Bool) : TriggerDecision :=
  let go := decide (0 < events.length) || rand_gt_half
  let reasons₀ :=
    if 0 < events.length then
      ["detected_" ++ toString events.length ++ "_events"]
    else []
  { should_trigger := go
    reasons := if go && reasons₀.isEmpty then reasons₀ ++ ["random_trigger"] else reasons₀ }

/-- The two time-indexed stores of `EventDrivenCache` (lines 262-268), as
association lists in dictionary insertion order. -/
structure EventDrivenCache where
  audio_cache : List (ℚ × SoundFeatures)
  video_cache : List (ℚ × FaceFeatures)
deriving DecidableEq

/-- A cache with nothing stored, as `EventDrivenCache.__init__` builds. -/
def empty_cache : EventDrivenCache := ⟨[], []⟩

/-- Python dict assignment `d[k] = v`: overwrite in place when the key exists,
append otherwise. -/
def dict_insert {β : Type} (l : List (ℚ × β)) (k : ℚ) (v : β) : List (ℚ × β) :=
  if l.any fun p => p.1 == k then l.map fun p => if p.1 == k then (k, v) else p
  else l ++ [(k, v)]

/-- `EventDrivenCache.get_interpolated_audio` (lines 270-282): nearest-neighbor
search over the stored timestamps (Python `min` keeps the first minimizer),
returning the entry only when it lies strictly within 2.0s of the query.
`n_points` is accepted and unused exactly as in the source. -/
def get_interpolated_audio (c : EventDrivenCache) (timestamp : ℚ)
    (n_points : ℕ) : Option SoundFeatures :=
  match c.audio_cache with
  | [] => none
  | p :: ps =>
    let closest := ps.foldl
      (fun best q => if |q.1 - timestamp| < |best.1 - timestamp| then q else best) p
    if |closest.1 - timestamp| < 2 then some closest.2 else none

/-- `EventDrivenCache.get_interpolated_video` (lines 284-295): same
nearest-neighbor lookup over the video store. -/
def get_interpolated_video (c : EventDrivenCache) (timestamp : ℚ) :
    Option FaceFeatures :=
  match c.video_cache with
  | [] => none
  | p :: ps =>
    let closest := ps.foldl
      (fun best q => if |q.1 - timestamp| < |best.1 - timestamp| then q else best) p
    if |closest.1 - timestamp| < 2 then some closest.2 else none

/-- `EventDrivenCache.store_audio_features` (lines 297-301), with the `"sound"`
sub-dictionary already extracted by the caller (`_cache_segment_features`
always passes `{"sound": ...}`, so the key test of line 299 holds). -/
def store_audio_features (c : EventDrivenCache) (timestamp : ℚ)
    (sound : SoundFeatures) : EventDrivenCache :=
  { c with audio_cache := dict_insert c.audio_cache timestamp sound }

/-- `EventDrivenCache.store_video_features` (lines 303-307). -/
def store_video_features (c : EventDrivenCache) (timestamp : ℚ)
    (face : FaceFeatures) : EventDrivenCache :=
  { c with video_cache := dict_insert c.video_cache timestamp face }

/-- `EventDrivenCache.cleanup_old_cache` (lines 309-325): keep, in both stores
independently, exactly the entries whose timestamp is at or after
`current_time - max_age`. -/
def cleanup_old_cache (c : EventDrivenCache) (current_time max_age : ℚ) :
    EventDrivenCache :=
  { audio_cache := c.audio_cache.filter fun p => decide (current_time - max_age ≤ p.1)
    video_cache := c.video_cache.filter fun p => decide (current_time - max_age ≤ p.1) }

/-- `_get_default_sound_features` (lines 953-960): three all-zero arrays of
`CFG["prosody_points"]` samples. -/
def get_default_sound_features : SoundFeatures :=
  { pitch := List.replicate prosody_points 0
    rate := List.replicate prosody_points 0
    level := List.replicate prosody_points 0 }

/-- `_get_default_face_features` (lines 962-972), exactly as written: seven
all-zero `[mean, std]` pairs.  The source omits the `FaceSize` key that every
other face bundle of the file carries. -/
def get_default_face_features : FaceFeatures :=
  [("Smile", (0, 0)), ("Mouth", (0, 0)), ("EAR", (0, 0)), ("Brow", (0, 0)),
   ("Yaw", (0, 0)), ("Pitch", (0, 0)), ("Roll", (0, 0))]

/-- The `start_ms` actually used for a segment dictionary:
`seg.get("start_ms", 0)` (lines 656, 676). -/
def effStart (s : RawSegment) : ℤ := s.start_ms.getD 0

/-- The `end_ms` actually used for a segment dictionary at the outer loop:
`seg.get("end_ms", start_ms + 3000)` (line 657). -/
def effEnd (s : RawSegment) : ℤ := s.end_ms.getD (effStart s + 3000)

/-- `sub_start_s` of line 676: `sub_seg.get("start_ms", 0) / 1000.0`. -/
def loopStartS (s : RawSegment) : ℚ := ((effStart s : ℤ) : ℚ) / 1000

/-- `sub_end_s` of line 677:
`sub_seg.get("end_ms", sub_start_s * 1000 + 3000) / 1000.0` (the default of
the `.get` is the float `sub_start_s * 1000 + 3000`). -/
def loopEndS (s : RawSegment) : ℚ :=
  ((s.end_ms.map fun z => ((z : ℤ) : ℚ)).getD (loopStartS s * 1000 + 3000)) / 1000

/-- The VAD timeline `self._precomputed_vad["timeline"]`: discretized time
bucket ↦ label (`"speech"` or `"pause"`), in dict insertion order. -/
abbrev VADTimeline := List (ℚ × String)

/-- The split-point scan of lines 877-880: timeline buckets strictly inside
the span whose label is `pause`, in timeline iteration order. -/
def pause_split_points (tl : VADTimeline) (start_s end_s : ℚ) : List ℚ :=
  (tl.filter fun p =>
    decide (start_s < p.1) && decide (p.1 < end_s) && (p.2 == "pause")).map Prod.fst

/-- The sub-segment built at lines 891-894 and 900-903: a copy of the parent
with rewritten millisecond bounds and source tag `VAD_SPLIT`. -/
def mk_split_sub (segment : RawSegment) (p q : ℚ) : RawSegment :=
  { segment with
    start_ms := some (pyInt (p * 1000))
    end_ms := some (pyInt (q * 1000))
    source := some "VAD_SPLIT" }

/-- One iteration of the split loop (lines 889-896): accept a split point only
when it lies more than 1.0s after the previous cut. -/
def split_fold_step (segment : RawSegment) (acc : List RawSegment × ℚ)
    (sp : ℚ) : List RawSegment × ℚ :=
  if 1 < sp - acc.2 then (acc.1 ++ [mk_split_sub segment acc.2 sp], sp) else acc

/-- `_vad_split_segment_cached` (lines 868-910).  `vad = none` models a falsy
`self._precomputed_vad`; the final piece (lines 898-904) is emitted only when
it is itself longer than 1.0s, so the tail of the span can be dropped. -/
def vad_split_segment_cached (vad : Option VADTimeline) (start_s end_s : ℚ)
    (segment : RawSegment) : List RawSegment :=
  match vad with
  | none => [segment]
  | some tl =>
    let sps := pause_split_points tl start_s end_s
    if sps.isEmpty then [segment]
    else
      let st := sps.foldl (split_fold_step segment) ([], start_s)
      if 1 < end_s - st.2 then st.1 ++ [mk_split_sub segment st.2 end_s] else st.1

/-- The injected external capabilities of the analyzer object.  `Except Unit`
models a Python call that may raise; `detect_events` is total because
`_detect_events_in_segment` (lines 732-752) catches its own failures and
returns the events gathered so far.  The media paths the Python methods also
receive are fixed by the oracle closure. -/
structure Oracles where
  detect_events : ℚ → ℚ → List Event
  trigger : List Event → ℚ → Except Unit TriggerDecision
  prosody : ℤ → ℤ → ℕ → Except Unit SoundFeatures
  facial : ℤ → ℤ → Except Unit FaceFeatures

/-- The `try` block of `_analyze_segment_full` (lines 760-780): prosody first,
then facial analysis; if either raises, BOTH bundles are replaced by the
neutral defaults (the `except` of lines 777-780 rebinds both variables). -/
def full_features (o : Oracles) (start_ms end_ms : ℤ) :
    SoundFeatures × FaceFeatures :=
  match o.prosody start_ms end_ms prosody_points with
  | .error _ => (get_default_sound_features, get_default_face_features)
  | .ok sound =>
    match o.facial start_ms end_ms with
    | .error _ => (get_default_sound_features, get_default_face_features)
    | .ok face => (sound, face)

/-- `_analyze_segment_full` (lines 754-799): full-compute result, tagged
`analysis_mode = "full_compute"` whether or not an analyzer raised. -/
def analyze_segment_full (o : Oracles) (segment : RawSegment)
    (start_s end_s : ℚ) : SegmentResult :=
  { segment_id := seg_id (pyInt (start_s * 1000)) (pyInt (end_s * 1000))
    word := segment.text.getD ""
    start_ms := pyInt (start_s * 1000)
    end_ms := pyInt (end_s * 1000)
    sound := (full_features o (pyInt (start_s * 1000)) (pyInt (end_s * 1000))).1
    face := (full_features o (pyInt (start_s * 1000)) (pyInt (end_s * 1000))).2
    meta := { schema_version := "1.2.0"
              source := segment.source.getD "ASR_PUNCT"
              fallback_vad := false
              original_punct := segment.punct.getD ""
              analysis_mode := "full_compute" } }

/-- `_analyze_segment_cached` (lines 801-832): cache lookups at the segment
start time, any `None` replaced by the neutral default bundle. -/
def analyze_segment_cached (c : EventDrivenCache) (segment : RawSegment)
    (start_s end_s : ℚ) : SegmentResult :=
  { segment_id := seg_id (pyInt (start_s * 1000)) (pyInt (end_s * 1000))
    word := segment.text.getD ""
    start_ms := pyInt (start_s * 1000)
    end_ms := pyInt (end_s * 1000)
    sound := (get_interpolated_audio c start_s prosody_points).getD
      get_default_sound_features
    face := (get_interpolated_video c start_s).getD get_default_face_features
    meta := { schema_version := "1.2.0"
              source := segment.source.getD "ASR_PUNCT"
              fallback_vad := false
              original_punct := segment.punct.getD ""
              analysis_mode := "cached_interpolation" } }

/-- `_create_default_segment` (lines 834-853): the per-sub-segment fallback
record.  Its `meta.source` is the sub-segment's own source when present and
`"ERROR_FALLBACK"` only otherwise (line 848). -/
def create_default_segment (segment : RawSegment) (start_s end_s : ℚ) :
    SegmentResult :=
  { segment_id := seg_id (pyInt (start_s * 1000)) (pyInt (end_s * 1000))
    word := segment.text.getD "处理失败的段落"
    start_ms := pyInt (start_s * 1000)
    end_ms := pyInt (end_s * 1000)
    sound := get_default_sound_features
    face := get_default_face_features
    meta := { schema_version := "1.2.0"
              source := segment.source.getD "ERROR_FALLBACK"
              fallback_vad := false
              original_punct := segment.punct.getD ""
              analysis_mode := "error_fallback" } }

/-- `_cache_segment_features` (lines 855-866): the sound dictionary always has
its three keys, so it is always stored; the face dictionary is stored only
when non-empty (Python truthiness at line 863). -/
def cache_segment_features (c : EventDrivenCache) (timestamp : ℚ)
    (r : SegmentResult) : EventDrivenCache :=
  let c1 := store_audio_features c timestamp r.sound
  if r.face.isEmpty then c1 else store_video_features c1 timestamp r.face

/-- The branching of lines 666-672: a segment is VAD-split exactly when it is
longer than `CFG["max_segment_s"] = 12.0` seconds or its text is longer than
`CFG["max_chars"] = 30` characters. -/
def sub_segments_of (vad : Option VADTimeline) (seg : RawSegment) :
    List RawSegment :=
  if 12 < ((effEnd seg : ℚ) / 1000 - (effStart seg : ℚ) / 1000)
      ∨ 30 < (seg.text.getD "").length then
    vad_split_segment_cached vad ((effStart seg : ℚ) / 1000)
      ((effEnd seg : ℚ) / 1000) seg
  else [seg]

/-- The loop state of `_process_segments_event_driven`:
`(processed_segments, cache, total_end_s)`. -/
abbrev ProcState := List SegmentResult × EventDrivenCache × ℚ

/-- The result appended for one sub-segment (lines 682-711): the trigger
decision selects full compute or cached interpolation; a trigger call that
raises is the only modelled failure that reaches the inner `except` of
line 707, every other fallible call being caught inside its own callee. -/
def step_result (o : Oracles) (cache : EventDrivenCache) (sub : RawSegment) :
    SegmentResult :=
  match o.trigger (o.detect_events (loopStartS sub) (loopEndS sub)) (loopStartS sub) with
  | .error _ => create_default_segment sub (loopStartS sub) (loopEndS sub)
  | .ok ti =>
    if ti.should_trigger then
      analyze_segment_full o sub (loopStartS sub) (loopEndS sub)
    else
      analyze_segment_cached cache sub (loopStartS sub) (loopEndS sub)

/-- The cache after one sub-segment: only the full-compute branch stores its
features (line 697). -/
def step_cache (o : Oracles) (cache : EventDrivenCache) (sub : RawSegment) :
    EventDrivenCache :=
  match o.trigger (o.detect_events (loopStartS sub) (loopEndS sub)) (loopStartS sub) with
  | .error _ => cache
  | .ok ti =>
    if ti.should_trigger then
      cache_segment_features cache (loopStartS sub)
        (analyze_segment_full o sub (loopStartS sub) (loopEndS sub))
    else cache

/-- One iteration of the inner sub-segment loop (lines 675-711): track the
maximal end time, append exactly one result, update the cache. -/
def process_sub (o : Oracles) (acc : ProcState) (sub : RawSegment) : ProcState :=
  (acc.1 ++ [step_result o acc.2.1 sub], step_cache o acc.2.1 sub,
    max acc.2.2 (loopEndS sub))

/-- One iteration of the outer segment loop (lines 655-717): update
`total_end_s` with the segment's own end (line 662), split if needed, then
run the sub-segment loop. -/
def process_seg (o : Oracles) (vad : Option VADTimeline) (acc : ProcState)
    (seg : RawSegment) : ProcState :=
  (sub_segments_of vad seg).foldl (process_sub o)
    (acc.1, acc.2.1, max acc.2.2 ((effEnd seg : ℚ) / 1000))

/-- `_process_segments_event_driven` (lines 635-730), returning the emitted
results together with the cache after the final `cleanup_old_cache` call.
An empty input list short-circuits at lines 648-652, cleaning the cache with
the precomputed duration (`precomputed_audio.get("duration", 0.0)`) as
reference. -/
def process_segments_event_driven (o : Oracles) (vad : Option VADTimeline)
    (asr_segments : List RawSegment) (cache : EventDrivenCache)
    (duration : Option ℚ) : List SegmentResult × EventDrivenCache :=
  if asr_segments.isEmpty then
    ([], cleanup_old_cache cache (duration.getD 0) cache_max_age_s)
  else
    let st := asr_segments.foldl (process_seg o vad) ([], cache, 0)
    (st.1, cleanup_old_cache st.2.1 st.2.2 cache_max_age_s)

/-- The `summary` dictionary of `analyze_video_audio`: `none` models a key the
failure branch (lines 495-506) leaves out.  The wall-clock timing metrics are
not modelled. -/
structure Summary where
  total_duration : ℚ
  segment_count : ℕ
  asr_segments : Option ℕ
  vad_fallback_segments : Option ℕ
  error : Option String
  perf_status : Option String
deriving DecidableEq

/-- The document returned by `analyze_video_audio`. -/
structure AnalyzeOutput where
  segments : List SegmentResult
  summary : Summary
deriving DecidableEq

/-- `analyze_video_audio` (lines 416-506).  The fallible body — the existence
check of line 427 followed by precompute, segmentation and processing — is
abstracted as an `Except` value carrying the produced segments and the
precomputed duration; a missing video file raises `FileNotFoundError` with
the message of line 428 before the body runs.  Either failure lands in the
top-level `except` of lines 491-506, which builds the degraded result. -/
def analyze_video_audio (video_exists : Bool) (video_path : String)
    (pipeline : Except String (List SegmentResult × ℚ)) : AnalyzeOutput :=
  match (if video_exists then pipeline
         else .error ("视频文件不存在: " ++ video_path)) with
  | .ok (segments, duration) =>
    { segments := segments
      summary := { total_duration := duration
                   segment_count := segments.length
                   asr_segments := some (segments.countP fun r => r.meta.source == "ASR_PUNCT")
                   vad_fallback_segments := some (segments.countP fun r => r.meta.source == "VAD_FALLBACK")
                   error := none
                   perf_status := none } }
  | .error e =>
    { segments := []
      summary := { total_duration := 0
                   segment_count := 0
                   asr_segments := none
                   vad_fallback_segments := none
                   error := some e
                   perf_status := some "failed" } }

/-- A 31-character, one-second ASR segment: long enough in characters to be
VAD-split, too short in time for any split window to survive the 1.0s
minimum. -/
def segC1 : RawSegment :=
  { text := some "aaaaaaaaaaaaaaaaaaaaaaaaaaaaaaa"
    start_ms := some 0
    end_ms := some 1000
    source := some "ASR_PUNCT"
    punct := some "" }

/-- A timeline with a single pause bucket at 0.5s. -/
def vadC : VADTimeline := [((1 : ℚ) / 2, "pause")]

/-- A timeline whose only pause bucket lies outside the spans probed below. -/
def tlW3 : VADTimeline := [((10 : ℚ), "pause")]

/-- A sample prosody bundle distinct from the defaults. -/
def mockSound : SoundFeatures := ⟨[200], [1], [(7 : ℚ) / 10]⟩

/-- A second sample prosody bundle. -/
def mockSound2 : SoundFeatures := ⟨[210], [2], [(9 : ℚ) / 10]⟩

/-- A sample face bundle distinct from the defaults. -/
def mockFace : FaceFeatures := [("Smile", ((1 : ℚ) / 2, (1 : ℚ) / 10))]

/-- A second sample face bundle. -/
def mockFace2 : FaceFeatures := [("Mouth", ((3 : ℚ) / 10, (1 : ℚ) / 10))]

/-- A short ordinary ASR segment spanning 0–5s. -/
def segA : RawSegment :=
  { text := some "hi"
    start_ms := some 0
    end_ms := some 5000
    source := some "ASR_PUNCT"
    punct := some "" }

/-- A short ordinary ASR segment spanning 6–11s. -/
def segB : RawSegment :=
  { text := some "ok"
    start_ms := some 6000
    end_ms := some 11000
    source := some "ASR_PUNCT"
    punct := some "" }

/-- An environment with no events, an always-firing trigger and analyzers
that always succeed. -/
def oC : Oracles :=
  { detect_events := fun _ _ => []
    trigger := fun _ _ => .ok ⟨true, []⟩
    prosody := fun _ _ _ => .ok mockSound
    facial := fun _ _ => .ok mockFace }

/-- An environment whose facial analyzer always raises. -/
def oCx : Oracles :=
  { detect_events := fun _ _ => []
    trigger := fun _ _ => .ok ⟨true, []⟩
    prosody := fun _ _ _ => .ok mockSound
    facial := fun _ _ => .error () }

/-- An environment whose facial analyzer raises exactly on the sub-segment
starting at 6000ms (the span of `segB`). -/
def oW : Oracles :=
  { detect_events := fun _ _ => []
    trigger := fun _ _ => .ok ⟨true, []⟩
    prosody := fun _ _ _ => .ok mockSound
    facial := fun a _ => if a = 6000 then .error () else .ok mockFace }

/-- An environment whose trigger never fires, forcing the cached path. -/
def oW2 : Oracles :=
  { detect_events := fun _ _ => []
    trigger := fun _ _ => .ok ⟨false, []⟩
    prosody := fun _ _ _ => .ok mockSound
    facial := fun _ _ => .ok mockFace }

/-- A cache whose only audio entry is 10s away from the probes below. -/
def cW4 : EventDrivenCache := ⟨[((10 : ℚ), mockSound)], []⟩

/-- The cache state of the spec's Scenario E: one entry at t=1.0s and one at
t=50.0s in each store. -/
def cacheE : EventDrivenCache :=
  ⟨[((1 : ℚ), mockSound), ((50 : ℚ), mockSound2)],
   [((1 : ℚ), mockFace), ((50 : ℚ), mockFace2)]⟩

/-- A sample event. -/
def evW : Event := ⟨"audio_change", (4 : ℚ) / 5⟩

/-- The result the cached path produces for `segA` on an empty cache. -/
def rW2 : SegmentResult :=
  analyze_segment_cached empty_cache segA (loopStartS segA) (loopEndS segA)

/-- Truncation toward zero is monotone. -/
theorem pyInt_mono {a b : ℚ} (h : a ≤ b) : pyInt a ≤ pyInt b := by
  unfold pyInt
  by_cases ha : 0 ≤ a <;> by_cases hb : 0 ≤ b <;> simp [ha, hb]
  · exact Int.floor_mono h
  · linarith
  · refine le_trans (Int.ceil_le.mpr ?_) (Int.floor_nonneg.mpr hb)
    exact_mod_cast le_of_not_le ha
  · exact Int.ceil_mono h

/-- Two seconds-valued cuts more than one second apart map to millisecond
bounds at least 1000 apart, provided the first is nonnegative. -/
theorem pyInt_gap {p q : ℚ} (hp : 0 ≤ p) (hpq : p + 1 < q) :
    pyInt (p * 1000) + 1000 ≤ pyInt (q * 1000) := by
  have hp1000 : (0 : ℚ) ≤ p * 1000 := by positivity
  have hq1000 : (0 : ℚ) ≤ q * 1000 := by nlinarith
  simp only [pyInt, if_pos hp1000, if_pos hq1000]
  rw [Int.le_floor]
  have h1 : ((⌊p * 1000⌋ : ℤ) : ℚ) ≤ p * 1000 := Int.floor_le _
  push_cast
  nlinarith

/-- The seconds value used in the sub-segment loop, scaled back to
milliseconds, is the effective `start_ms` of the segment. -/
theorem loopStartS_mul (s : RawSegment) : loopStartS s * 1000 = (effStart s : ℚ) := by
  unfold loopStartS
  rw [div_mul_cancel₀]
  norm_num

/-- The loop's `sub_end_s`, scaled back to milliseconds, is the effective
`end_ms` of the segment. -/
theorem loopEndS_mul (s : RawSegment) : loopEndS s * 1000 = (effEnd s : ℚ) := by
  unfold loopEndS effEnd
  cases h : s.end_ms with
  | none =>
    simp only [h, Option.map_none', Option.getD_none, Option.getD_some]
    rw [div_mul_cancel₀ _ (by norm_num : (1000 : ℚ) ≠ 0), loopStartS_mul]
    push_cast
    ring
  | some e =>
    simp only [h, Option.map_some', Option.getD_some]
    rw [div_mul_cancel₀ _ (by norm_num : (1000 : ℚ) ≠ 0)]

/-- The fold that implements Python's `min` over stored keys returns either
its initial element or an element of the list. -/
theorem foldl_nearest_mem {β : Type} (ts : ℚ) :
    ∀ (l : List (ℚ × β)) (a : ℚ × β),
      (l.foldl (fun best q => if |q.1 - ts| < |best.1 - ts| then q else best) a) = a
      ∨ (l.foldl (fun best q => if |q.1 - ts| < |best.1 - ts| then q else best) a) ∈ l := by
  intro l
  induction l with
  | nil => intro a; left; rfl
  | cons x xs ih =>
    intro a
    rw [List.foldl_cons]
    rcases ih (if |x.1 - ts| < |a.1 - ts| then x else a) with h | h
    · rw [h]
      split
      · right; exact List.mem_cons_self x xs
      · left; rfl
    · right; exact List.mem_cons_of_mem _ h

/-- Audio lookup misses when every stored entry is at least the validity
window away from the query. -/
theorem get_interpolated_audio_far (c : EventDrivenCache) (t : ℚ) (n : ℕ)
    (h : ∀ p ∈ c.audio_cache, 2 ≤ |p.1 - t|) :
    get_interpolated_audio c t n = none := by
  unfold get_interpolated_audio
  cases hc : c.audio_cache with
  | nil => rfl
  | cons p ps =>
    have hmem : (ps.foldl (fun best q => if |q.1 - t| < |best.1 - t| then q else best) p) ∈ p :: ps := by
      rcases foldl_nearest_mem t ps p with h1 | h1
      · rw [h1]; exact List.mem_cons_self p ps
      · exact List.mem_cons_of_mem _ h1
    have hfar := h _ (hc ▸ hmem)
    simp only [if_neg (not_lt.mpr hfar)]

/-- Video lookup misses when every stored entry is at least the validity
window away from the query. -/
theorem get_interpolated_video_far (c : EventDrivenCache) (t : ℚ)
    (h : ∀ p ∈ c.video_cache, 2 ≤ |p.1 - t|) :
    get_interpolated_video c t = none := by
  unfold get_interpolated_video
  cases hc : c.video_cache with
  | nil => rfl
  | cons p ps =>
    have hmem : (ps.foldl (fun best q => if |q.1 - t| < |best.1 - t| then q else best) p) ∈ p :: ps := by
      rcases foldl_nearest_mem t ps p with h1 | h1
      · rw [h1]; exact List.mem_cons_self p ps
      · exact List.mem_cons_of_mem _ h1
    have hfar := h _ (hc ▸ hmem)
    simp only [if_neg (not_lt.mpr hfar)]

/-- Invariant of the split loop: the running cut never moves before the
segment start, and every accepted sub-segment is a `mk_split_sub` over a
nonnegative-length window longer than one second starting at or after the
segment start. -/
theorem split_fold_inv (segment : RawSegment) (start_s : ℚ) :
    ∀ (sps : List ℚ) (acc : List RawSegment × ℚ),
      start_s ≤ acc.2 →
      (∀ r ∈ acc.1, ∃ p q, start_s ≤ p ∧ p + 1 < q ∧ r = mk_split_sub segment p q) →
      start_s ≤ (sps.foldl (split_fold_step segment) acc).2
      ∧ ∀ r ∈ (sps.foldl (split_fold_step segment) acc).1,
          ∃ p q, start_s ≤ p ∧ p + 1 < q ∧ r = mk_split_sub segment p q := by
  intro sps
  induction sps with
  | nil => intro acc h1 h2; exact ⟨h1, h2⟩
  | cons sp sps ih =>
    intro acc h1 h2
    rw [List.foldl_cons]
    unfold split_fold_step
    split
    · rename_i hsp
      refine ih _ (by linarith) ?_
      intro r hr
      rcases List.mem_append.mp hr with h | h
      · exact h2 r h
      · refine ⟨acc.2, sp, h1, by linarith, ?_⟩
        simpa using h
    · exact ih acc h1 h2

/-- Every element the splitter returns is either the original segment or an
accepted split window: a `VAD_SPLIT`-tagged copy over a window longer than
one second that starts at or after `start_s`. -/
theorem vad_split_mem {vad : Option VADTimeline} {start_s end_s : ℚ}
    {segment r : RawSegment}
    (hr : r ∈ vad_split_segment_cached vad start_s end_s segment) :
    r = segment
    ∨ ∃ p q, start_s ≤ p ∧ p + 1 < q ∧ r = mk_split_sub segment p q := by
  cases vad with
  | none => left; simpa [vad_split_segment_cached] using hr
  | some tl =>
    unfold vad_split_segment_cached at hr
    dsimp only at hr
    have hinv := split_fold_inv segment start_s
      (pause_split_points tl start_s end_s) ([], start_s) le_rfl (by simp)
    split at hr
    · left; simpa using hr
    · split at hr
      · rename_i hlast
        rcases List.mem_append.mp hr with h | h
        · exact Or.inr (hinv.2 r h)
        · refine Or.inr ⟨_, end_s, hinv.1, by linarith, ?_⟩
          simpa using h
      · exact Or.inr (hinv.2 r hr)

/-- The inner sub-segment loop appends exactly one result per sub-segment. -/
theorem foldl_process_sub_length (o : Oracles) :
    ∀ (subs : List RawSegment) (acc : ProcState),
      ((subs.foldl (process_sub o) acc).1).length = acc.1.length + subs.length := by
  intro subs
  induction subs with
  | nil => intro acc; simp
  | cons x xs ih =>
    intro acc
    rw [List.foldl_cons, ih]
    simp [process_sub]
    omega

/-- A property of results established for every sub-segment step is preserved
by the inner loop. -/
theorem foldl_process_sub_mem (o : Oracles) (P : SegmentResult → Prop) :
    ∀ (subs : List RawSegment) (acc : ProcState),
      (∀ c sub, sub ∈ subs → P (step_result o c sub)) →
      (∀ r ∈ acc.1, P r) →
      ∀ r ∈ (subs.foldl (process_sub o) acc).1, P r := by
  intro subs
  induction subs with
  | nil => intro acc _ hacc; simpa using hacc
  | cons x xs ih =>
    intro acc hstep hacc
    rw [List.foldl_cons]
    refine ih _ (fun c sub hs => hstep c sub (List.mem_cons_of_mem _ hs)) ?_
    intro r hr
    rcases List.mem_append.mp hr with h | h
    · exact hacc r h
    · have := hstep acc.2.1 x (List.mem_cons_self _ _)
      simpa using List.mem_singleton.mp h ▸ this

/-- The outer loop emits, per input segment, exactly one result per
sub-segment derived from splitting. -/
theorem foldl_process_seg_length (o : Oracles) (vad : Option VADTimeline) :
    ∀ (segs : List RawSegment) (acc : ProcState),
      ((segs.foldl (process_seg o vad) acc).1).length
        = acc.1.length + (segs.map fun s => (sub_segments_of vad s).length).sum := by
  intro segs
  induction segs with
  | nil => intro acc; simp
  | cons s t ih =>
    intro acc
    rw [List.foldl_cons, ih]
    unfold process_seg
    rw [foldl_process_sub_length]
    simp
    omega

/-- The millisecond bounds and the schema version of the result appended for
one sub-segment are the same in all three branches. -/
theorem step_result_fields (o : Oracles) (c : EventDrivenCache) (sub : RawSegment) :
    (step_result o c sub).start_ms = pyInt (loopStartS sub * 1000)
    ∧ (step_result o c sub).end_ms = pyInt (loopEndS sub * 1000)
    ∧ (step_result o c sub).meta.schema_version = "1.2.0" := by
  unfold step_result
  cases o.trigger (o.detect_events (loopStartS sub) (loopEndS sub)) (loopStartS sub) with
  | error e => exact ⟨rfl, rfl, rfl⟩
  | ok ti =>
    by_cases h : ti.should_trigger = true
    · simp only [h, if_true]
      exact ⟨rfl, rfl, rfl⟩
    · simp only [h, if_false]
      exact ⟨rfl, rfl, rfl⟩

/-- A sub-segment whose effective bounds are ordered yields a result with
ordered millisecond bounds. -/
theorem step_result_le (o : Oracles) (c : EventDrivenCache) (sub : RawSegment)
    (h : effStart sub ≤ effEnd sub) :
    (step_result o c sub).start_ms ≤ (step_result o c sub).end_ms := by
  obtain ⟨h1, h2, _⟩ := step_result_fields o c sub
  rw [h1, h2]
  apply pyInt_mono
  rw [loopStartS_mul, loopEndS_mul]
  exact_mod_cast h

/-- Splitting preserves ordered effective bounds. -/
theorem sub_segments_eff (vad : Option VADTimeline) (seg : RawSegment)
    (h : effStart seg ≤ effEnd seg) :
    ∀ sub ∈ sub_segments_of vad seg, effStart sub ≤ effEnd sub := by
  intro sub hsub
  unfold sub_segments_of at hsub
  split at hsub
  · rcases vad_split_mem hsub with rfl | ⟨p, q, _, hpq, rfl⟩
    · exact h
    · show effStart (mk_split_sub seg p q) ≤ effEnd (mk_split_sub seg p q)
      unfold effStart effEnd mk_split_sub
      simp only [Option.getD_some]
      exact pyInt_mono (by nlinarith)
  · have : sub = seg := by simpa using hsub
    exact this ▸ h

/-- When the trigger policy always fires, every sub-segment takes the
full-compute branch, whose result does not depend on the cache state, so the
loop emits exactly the mapped full-compute results. -/
theorem foldl_process_seg_map (o : Oracles) (vad : Option VADTimeline)
    (htrig : ∀ es t, ∃ rs, o.trigger es t = Except.ok ⟨true, rs⟩) :
    ∀ (segs : List RawSegment),
      (∀ s ∈ segs, sub_segments_of vad s = [s]) →
      ∀ acc : ProcState,
        (segs.foldl (process_seg o vad) acc).1
          = acc.1 ++ segs.map fun s => analyze_segment_full o s (loopStartS s) (loopEndS s) := by
  intro segs
  induction segs with
  | nil => intro _ acc; simp
  | cons s t ih =>
    intro hshort acc
    rw [List.foldl_cons, ih (fun x hx => hshort x (List.mem_cons_of_mem _ hx))]
    have h1 : sub_segments_of vad s = [s] := hshort s (List.mem_cons_self _ _)
    unfold process_seg
    rw [h1, List.foldl_cons, List.foldl_nil]
    obtain ⟨rs, htr⟩ := htrig (o.detect_events (loopStartS s) (loopEndS s)) (loopStartS s)
    unfold process_sub step_result
    rw [htr]
    simp

/-- C5: `cleanup_old_cache(reference_time, max_age)` retains, in each store
independently, exactly the entries at or after `reference_time - max_age` and
removes every strictly older entry; in particular, on stores holding one
entry at t=1.0s and one at t=50.0s each, cleanup at reference 50.0s with
max_age 10s removes the 1.0s entries and retains the 50.0s entries. -/
theorem c5_cleanup_cutoff (c : EventDrivenCache) (cur max_age : ℚ)
    (p : ℚ × SoundFeatures) (q : ℚ × FaceFeatures) :
    (p ∈ (cleanup_old_cache c cur max_age).audio_cache
      ↔ p ∈ c.audio_cache ∧ cur - max_age ≤ p.1)
    ∧ (q ∈ (cleanup_old_cache c cur max_age).video_cache
      ↔ q ∈ c.video_cache ∧ cur - max_age ≤ q.1)
    ∧ (cleanup_old_cache cacheE 50 10).audio_cache = [((50 : ℚ), mockSound2)]
    ∧ (cleanup_old_cache cacheE 50 10).video_cache = [((50 : ℚ), mockFace2)] := by
  refine ⟨?_, ?_, ?_, ?_⟩
  · simp [cleanup_old_cache, List.mem_filter]
  · simp [cleanup_old_cache, List.mem_filter]
  · norm_num [cleanup_old_cache, cacheE]
  · norm_num [cleanup_old_cache, cacheE]

/-- C6: a top-level failure of `analyze_video_audio` — a missing video file,
or any exception escaping the pipeline body — is converted into a degraded
result with an empty segment list, a summary `error` string and a `failed`
status marker, and is never propagated to the caller. -/
theorem c6_top_level_degraded (vp : String)
    (pl : Except String (List SegmentResult × ℚ)) (e : String) :
    ((analyze_video_audio false vp pl).segments = []
      ∧ (analyze_video_audio false vp pl).summary.error
          = some ("视频文件不存在: " ++ vp)
      ∧ (analyze_video_audio false vp pl).summary.perf_status = some "failed")
    ∧ ((analyze_video_audio true vp (Except.error e)).segments = []
      ∧ (analyze_video_audio true vp (Except.error e)).summary.error = some e
      ∧ (analyze_video_audio true vp (Except.error e)).summary.perf_status
          = some "failed") := by
  refine ⟨⟨?_, ?_, ?_⟩, ⟨?_, ?_, ?_⟩⟩ <;> rfl

/-- C7: an empty RawSegment list yields an empty result list, and cache
cleanup still runs, with the precomputed source duration as reference and
`CFG["cache_max_age_s"]` as the age bound. -/
theorem c7_empty_run_cleanup (o : Oracles) (vad : Option VADTimeline)
    (cache : EventDrivenCache) (duration : Option ℚ) :
    process_segments_event_driven o vad [] cache duration
      = ([], cleanup_old_cache cache (duration.getD 0) cache_max_age_s) := by
  rfl

/-- C9: the neutral default face bundle of `_get_default_face_features` maps
only the seven features Smile, Mouth, EAR, Brow, Yaw, Pitch, Roll to all-zero
`[mean, std]` pairs; the `FaceSize` key of the fixed vocabulary is absent,
although every other face bundle in the file carries it. -/
theorem c9_default_face_missing_facesize :
    get_default_face_features.map Prod.fst
      = ["Smile", "Mouth", "EAR", "Brow", "Yaw", "Pitch", "Roll"]
    ∧ "FaceSize" ∉ get_default_face_features.map Prod.fst
    ∧ (get_default_face_features.all fun kv => kv.2 == ((0 : ℚ), (0 : ℚ))) = true := by
  refine ⟨rfl, ?_, ?_⟩
  · simp [get_default_face_features]
  · simp [get_default_face_features]

/-- C10: for every events list, timestamp and outcome of the random draw,
`should_trigger_analysis` triggers exactly when its reasons list is
non-empty; and a non-empty events list always triggers, with a reason tag
recording the event count. -/
theorem c10_trigger_reasons (events : List Event) (t : ℚ) (rand : Bool) :
    ((should_trigger_analysis events t rand).should_trigger = true
      ↔ (should_trigger_analysis events t rand).reasons ≠ [])
    ∧ (events ≠ [] →
        (should_trigger_analysis events t rand).should_trigger = true
        ∧ ("detected_" ++ toString events.length ++ "_events")
            ∈ (should_trigger_analysis events t rand).reasons) := by
  cases events <;> cases rand <;> simp [should_trigger_analysis]

/-- Witness for C10 at a concrete input: one event and an unfavorable random
draw still trigger, with the counting tag present. -/
theorem c10_witness :
    (should_trigger_analysis [evW] 0 false).should_trigger = true
    ∧ ("detected_" ++ toString ([evW].length) ++ "_events")
        ∈ (should_trigger_analysis [evW] 0 false).reasons := by
  have h := c10_trigger_reasons [evW] 0 false
  exact h.2 (by simp)

/-- C4: both cache lookups are total functions that signal a miss (`none`)
when nothing is stored or when every stored entry — in particular the nearest
one — is at least the 2.0s validity window away from the query; on a double
miss the cached-interpolation path substitutes the neutral default bundles,
whose prosody arrays are `prosody_points` zeros and whose face pairs are all
zero. -/
theorem c4_cache_miss_defaults (c : EventDrivenCache) (t s e : ℚ) (n : ℕ)
    (seg : RawSegment) :
    (c.audio_cache = [] → get_interpolated_audio c t n = none)
    ∧ ((∀ p ∈ c.audio_cache, 2 ≤ |p.1 - t|) → get_interpolated_audio c t n = none)
    ∧ (c.video_cache = [] → get_interpolated_video c t = none)
    ∧ ((∀ p ∈ c.video_cache, 2 ≤ |p.1 - t|) → get_interpolated_video c t = none)
    ∧ ((∀ p ∈ c.audio_cache, 2 ≤ |p.1 - s|) → (∀ p ∈ c.video_cache, 2 ≤ |p.1 - s|) →
        (analyze_segment_cached c seg s e).sound = get_default_sound_features
        ∧ (analyze_segment_cached c seg s e).face = get_default_face_features)
    ∧ get_default_sound_features.pitch = List.replicate prosody_points 0
    ∧ get_default_sound_features.rate = List.replicate prosody_points 0
    ∧ get_default_sound_features.level = List.replicate prosody_points 0
    ∧ (get_default_face_features.all fun kv => kv.2 == ((0 : ℚ), (0 : ℚ))) = true := by
  refine ⟨?_, get_interpolated_audio_far c t n, ?_, get_interpolated_video_far c t,
    ?_, rfl, rfl, rfl, by simp [get_default_face_features]⟩
  · intro h
    unfold get_interpolated_audio
    rw [h]
  · intro h
    unfold get_interpolated_video
    rw [h]
  · intro h1 h2
    constructor
    · show (get_interpolated_audio c s prosody_points).getD _ = _
      rw [get_interpolated_audio_far c s prosody_points h1]
      rfl
    · show (get_interpolated_video c s).getD _ = _
      rw [get_interpolated_video_far c s h2]
      rfl

/-- Witness for C4 at concrete inputs: an empty video store and an audio
store whose only entry is 10s from the query both miss, and the cached path
then emits the default bundles. -/
theorem c4_witness :
    get_interpolated_audio cW4 0 15 = none
    ∧ get_interpolated_video cW4 0 = none
    ∧ (analyze_segment_cached cW4 segA 0 1).sound = get_default_sound_features
    ∧ (analyze_segment_cached cW4 segA 0 1).face = get_default_face_features := by
  have h := c4_cache_miss_defaults cW4 0 0 1 15 segA
  have haud : ∀ p ∈ cW4.audio_cache, (2 : ℚ) ≤ |p.1 - 0| := by
    intro p hp
    simp only [cW4] at hp
    rw [List.mem_singleton.mp hp]
    norm_num
  have hvid : ∀ p ∈ cW4.video_cache, (2 : ℚ) ≤ |p.1 - 0| := by
    intro p hp
    simp [cW4] at hp
  exact ⟨h.2.1 haud, h.2.2.2.1 hvid, (h.2.2.2.2.1 haud hvid).1, (h.2.2.2.2.1 haud hvid).2⟩

/-- C3 (amended): for every VAD timeline and span with a nonnegative start,
every sub-segment the splitter returns is either the original segment
(returned unsplit) or a split window at least 1000ms long — so no non-final
piece is ever shorter than 1.0s — and when no pause bucket lies strictly
inside the span (so there are no candidate split points at all) the original
segment is returned unchanged as the only element.  When candidates exist but
are all discarded by the 1.0s filter, the result need NOT be the original
segment: see the counterexample. -/
theorem c3_split_min_length (vad : Option VADTimeline) (start_s end_s : ℚ)
    (seg : RawSegment) (h0 : 0 ≤ start_s) :
    (∀ r ∈ vad_split_segment_cached vad start_s end_s seg,
        r = seg ∨ 1000 ≤ effEnd r - effStart r)
    ∧ (∀ tl, vad = some tl → pause_split_points tl start_s end_s = [] →
        vad_split_segment_cached vad start_s end_s seg = [seg]) := by
  constructor
  · intro r hr
    rcases vad_split_mem hr with rfl | ⟨p, q, hp, hpq, rfl⟩
    · left; rfl
    · right
      unfold effStart effEnd mk_split_sub
      simp only [Option.getD_some]
      have := pyInt_gap (le_trans h0 hp) hpq
      omega
  · intro tl htl hsps
    subst htl
    unfold vad_split_segment_cached
    simp [hsps]

/-- Counterexample for C3 as stated: the timeline holds one pause bucket at
0.5s strictly inside the span 0–1s, the only candidate is discarded by the
1.0s filter and the final piece (1.0s long, not strictly longer) is dropped
too, so the splitter returns the empty list — not the original segment. -/
theorem c3_counterexample :
    vad_split_segment_cached (some vadC) 0 1 segC1 = []
    ∧ vad_split_segment_cached (some vadC) 0 1 segC1 ≠ [segC1] := by
  have h : vad_split_segment_cached (some vadC) 0 1 segC1 = [] := by
    norm_num [vad_split_segment_cached, pause_split_points, split_fold_step,
      mk_split_sub, vadC]
  exact ⟨h, by rw [h]; simp⟩

/-- Witness for C3 at a concrete input: a timeline whose only pause bucket
lies outside the span 2–3s yields no candidates, and the splitter returns the
original segment unchanged. -/
theorem c3_witness :
    vad_split_segment_cached (some tlW3) 2 3 segC1 = [segC1] := by
  refine (c3_split_min_length (some tlW3) 2 3 segC1 (by norm_num)).2 tlW3 rfl ?_
  norm_num [pause_split_points, tlW3]

/-- C1 (amended): the number of emitted SegmentResults equals the total
number of sub-segments derived from splitting — each sub-segment contributes
exactly one result, error fallbacks included — but a RawSegment whose split
yields an empty sub-segment list contributes zero results, so the total can
be smaller than the number of RawSegments (see the counterexample). -/
theorem c1_result_count (o : Oracles) (vad : Option VADTimeline)
    (segs : List RawSegment) (cache : EventDrivenCache) (duration : Option ℚ) :
    ((process_segments_event_driven o vad segs cache duration).1).length
      = (segs.map fun s => (sub_segments_of vad s).length).sum := by
  cases segs with
  | nil => simp [process_segments_event_driven]
  | cons a l =>
    unfold process_segments_event_driven
    rw [if_neg (by simp)]
    rw [foldl_process_seg_length]
    simp

/-- Counterexample for C1 as stated: one RawSegment (31 characters of text
over one second, with a pause bucket at 0.5s) is split into zero
sub-segments, so the run emits zero SegmentResults for one input segment. -/
theorem c1_counterexample :
    (process_segments_event_driven oC (some vadC) [segC1] empty_cache (some 1)).1 = []
    ∧ [segC1].length = 1 := by
  refine ⟨?_, rfl⟩
  norm_num [process_segments_event_driven, process_seg, process_sub,
    sub_segments_of, vad_split_segment_cached, pause_split_points,
    split_fold_step, mk_split_sub, effStart, effEnd, segC1, vadC, oC,
    show 30 < "aaaaaaaaaaaaaaaaaaaaaaaaaaaaaaa".length from by decide]

/-- C2 (amended): a facial-analyzer exception during full compute is caught
INSIDE `_analyze_segment_full`, so the affected sub-segment still emits a
result tagged `analysis_mode = "full_compute"`, with both feature bundles
replaced by the neutral defaults — not an error fallback and not tagged
`source = ERROR_FALLBACK` — while every sub-segment whose analyzers succeed
carries their actual features; when the trigger always fires and no segment
splits, the run emits exactly the full-compute result of every sub-segment in
order, so the other sub-segments are unaffected by the failure. -/
theorem c2_facial_failure_contained (o : Oracles) (vad : Option VADTimeline)
    (segs : List RawSegment) (cache : EventDrivenCache) (duration : Option ℚ)
    (htrig : ∀ es t, ∃ rs, o.trigger es t = Except.ok ⟨true, rs⟩)
    (hshort : ∀ s ∈ segs, sub_segments_of vad s = [s]) :
    (process_segments_event_driven o vad segs cache duration).1
      = segs.map (fun s => analyze_segment_full o s (loopStartS s) (loopEndS s))
    ∧ ∀ (s : RawSegment) (a b : ℚ),
        ((o.facial (pyInt (a * 1000)) (pyInt (b * 1000))).isOk = false →
          (analyze_segment_full o s a b).sound = get_default_sound_features
          ∧ (analyze_segment_full o s a b).face = get_default_face_features
          ∧ (analyze_segment_full o s a b).meta.analysis_mode = "full_compute"
          ∧ (analyze_segment_full o s a b).meta.source = s.source.getD "ASR_PUNCT")
        ∧ (∀ sf ff,
            o.prosody (pyInt (a * 1000)) (pyInt (b * 1000)) prosody_points
              = Except.ok sf →
            o.facial (pyInt (a * 1000)) (pyInt (b * 1000)) = Except.ok ff →
            (analyze_segment_full o s a b).sound = sf
            ∧ (analyze_segment_full o s a b).face = ff
            ∧ (analyze_segment_full o s a b).meta.analysis_mode
                = "full_compute") := by
  constructor
  · cases segs with
    | nil => simp [process_segments_event_driven]
    | cons a l =>
      unfold process_segments_event_driven
      rw [if_neg (by simp)]
      rw [foldl_process_seg_map o vad htrig _ hshort]
      simp
  · intro s a b
    constructor
    · intro hko
      unfold analyze_segment_full full_features
      cases hp : o.prosody (pyInt (a * 1000)) (pyInt (b * 1000)) prosody_points with
      | error u => exact ⟨rfl, rfl, rfl, rfl⟩
      | ok sf =>
        cases hf : o.facial (pyInt (a * 1000)) (pyInt (b * 1000)) with
        | error u => exact ⟨rfl, rfl, rfl, rfl⟩
        | ok ff => rw [hf] at hko; simp [Except.isOk, Except.toBool] at hko
    · intro sf ff hp hf
      unfold analyze_segment_full full_features
      rw [hp, hf]
      exact ⟨rfl, rfl, rfl⟩

/-- Counterexample for C2 as stated: the facial analyzer raises while the
single sub-segment takes the full-compute path, yet the emitted result is
tagged `analysis_mode = "full_compute"` with `meta.source = "ASR_PUNCT"` —
not an error fallback with `source = ERROR_FALLBACK`. -/
theorem c2_counterexample :
    ((process_segments_event_driven oCx none [segA] empty_cache (some 11)).1.map
        fun r => (r.meta.source, r.meta.analysis_mode, r.sound, r.face))
      = [("ASR_PUNCT", "full_compute", get_default_sound_features,
          get_default_face_features)] := by
  norm_num [process_segments_event_driven, process_seg, process_sub,
    sub_segments_of, step_result, step_cache, analyze_segment_full,
    full_features, effStart, effEnd, loopStartS, loopEndS, segA, oCx,
    show ¬ (30 < "hi".length) from by decide]

/-- Without a VAD timeline the splitter always returns the segment itself,
whether or not the length check fires. -/
theorem sub_segments_of_none (s : RawSegment) : sub_segments_of none s = [s] := by
  unfold sub_segments_of
  split <;> rfl

/-- Witness for C2 at a concrete input: a two-segment run whose facial
analyzer raises exactly on the second sub-segment; the run emits both
full-compute results in order, the failing one carrying the default bundles
and the healthy one its actual features. -/
theorem c2_witness :
    (process_segments_event_driven oW none [segA, segB] empty_cache (some 11)).1
      = [analyze_segment_full oW segA (loopStartS segA) (loopEndS segA),
         analyze_segment_full oW segB (loopStartS segB) (loopEndS segB)]
    ∧ (analyze_segment_full oW segB (loopStartS segB) (loopEndS segB)).face
        = get_default_face_features
    ∧ (analyze_segment_full oW segB (loopStartS segB) (loopEndS segB)).meta.analysis_mode
        = "full_compute"
    ∧ (analyze_segment_full oW segA (loopStartS segA) (loopEndS segA)).face
        = mockFace := by
  have h := c2_facial_failure_contained oW none [segA, segB] empty_cache (some 11)
    (fun es t => ⟨[], rfl⟩)
    (fun s _ => sub_segments_of_none s)
  have hmsB : pyInt (loopStartS segB * 1000) = 6000 := by
    rw [loopStartS_mul]
    norm_num [effStart, segB, pyInt]
  have hmsA : pyInt (loopStartS segA * 1000) = 0 := by
    rw [loopStartS_mul]
    norm_num [effStart, segA, pyInt]
  have hiso : (oW.facial (pyInt (loopStartS segB * 1000))
      (pyInt (loopEndS segB * 1000))).isOk = false := by
    rw [hmsB]
    rfl
  have hf : oW.facial (pyInt (loopStartS segA * 1000))
      (pyInt (loopEndS segA * 1000)) = Except.ok mockFace := by
    rw [hmsA]
    rfl
  refine ⟨by simpa using h.1, ?_, ?_, ?_⟩
  · exact ((h.2 segB (loopStartS segB) (loopEndS segB)).1 hiso).2.1
  · exact ((h.2 segB (loopStartS segB) (loopEndS segB)).1 hiso).2.2.1
  · exact ((h.2 segA (loopStartS segA) (loopEndS segA)).2 mockSound mockFace rfl hf).2.1

/-- The invariant proof for C8: given ordered effective bounds for every
input segment, every emitted result of the outer loop has ordered millisecond
bounds and schema version 1.2.0. -/
theorem foldl_process_seg_inv (o : Oracles) (vad : Option VADTimeline) :
    ∀ (segs : List RawSegment),
      (∀ s ∈ segs, effStart s ≤ effEnd s) →
      ∀ acc : ProcState,
        (∀ r ∈ acc.1, r.start_ms ≤ r.end_ms ∧ r.meta.schema_version = "1.2.0") →
        ∀ r ∈ (segs.foldl (process_seg o vad) acc).1,
          r.start_ms ≤ r.end_ms ∧ r.meta.schema_version = "1.2.0" := by
  intro segs
  induction segs with
  | nil => intro _ acc hacc; simpa using hacc
  | cons s t ih =>
    intro hseg acc hacc
    rw [List.foldl_cons]
    refine ih (fun x hx => hseg x (List.mem_cons_of_mem _ hx)) _ ?_
    have hs : effStart s ≤ effEnd s := hseg s (List.mem_cons_self _ _)
    unfold process_seg
    refine foldl_process_sub_mem o _ _ _ ?_ ?_
    · intro c sub hsub
      exact ⟨step_result_le o c sub (sub_segments_eff vad s hs sub hsub),
        (step_result_fields o c sub).2.2⟩
    · simpa using hacc

/-- C8: when every input RawSegment has ordered effective bounds
(`end_ms ≥ start_ms`, with the source's `.get` defaults for missing keys),
every SegmentResult emitted by the run satisfies `start_ms ≤ end_ms`, and
`meta.schema_version` is the same `"1.2.0"` on all of them. -/
theorem c8_bounds_and_schema (o : Oracles) (vad : Option VADTimeline)
    (segs : List RawSegment) (cache : EventDrivenCache) (duration : Option ℚ)
    (h : ∀ s ∈ segs, effStart s ≤ effEnd s) :
    ∀ r ∈ (process_segments_event_driven o vad segs cache duration).1,
      r.start_ms ≤ r.end_ms ∧ r.meta.schema_version = "1.2.0" := by
  cases segs with
  | nil => simp [process_segments_event_driven]
  | cons a l =>
    unfold process_segments_event_driven
    rw [if_neg (by simp)]
    exact foldl_process_seg_inv o vad (a :: l) h ([], cache, 0) (by simp)

/-- Witness for C8 at a concrete input: the single result of a cached-path
run over one 0–5s segment has ordered bounds and schema version 1.2.0. -/
theorem c8_witness :
    rW2.start_ms ≤ rW2.end_ms ∧ rW2.meta.schema_version = "1.2.0" := by
  have h := c8_bounds_and_schema oW2 none [segA] empty_cache none
    (by intro s hs; rw [List.mem_singleton.mp hs]; norm_num [effStart, effEnd, segA])
  refine h rW2 ?_
  have hrun : (process_segments_event_driven oW2 none [segA] empty_cache none).1
      = [rW2] := by
    unfold process_segments_event_driven
    rw [if_neg (by simp)]
    rw [List.foldl_cons, List.foldl_nil]
    unfold process_seg
    rw [sub_segments_of_none segA, List.foldl_cons, List.foldl_nil]
    unfold process_sub step_result rW2
    rfl
  rw [hrun]
  exact List.mem_singleton.mpr rfl
